import Mathlib

/-!
Verification of the inventory mongo datastore
(`src/store/mongo/datastore_mongo.go`).

The device collection is embedded shallowly.  Every update and query path
of the Go file touches only the `_id` key and paths below the `attributes`
subdocument, so a stored device is modelled as its `attributes`
subdocument: a function from the composite `"scope-name"` key to an
optional attribute record.  The collection is modelled in two ways,
matching the two shapes of access in the source:

* `Store` (`_id`-keyed map) for the single-document update paths
  (`UpsertAttributes`, `UpdateDeviceGroup`, `UnsetDeviceGroup`);
* `List StoredDevice` (an ordered collection, as an aggregation scans it)
  for the read paths (`GetDevices`, `GetDevicesByGroup`).

MongoDB behaviour that the Go code relies on is made explicit:

* `$set` with a dotted path merges into the subdocument, creating it when
  missing (`applyEntry`);
* an update document whose paths conflict (one path is a proper prefix of
  another, across `$set`/`$setOnInsert`) is rejected by the server
  (`hasConflict`);
* `UpdateOne` reports `ModifiedCount = 0` for a no-op `$set` (a document
  that already holds exactly the written value);
* equality conditions (`$eq` and implicit field equality) match a stored
  scalar that equals the operand, and also a stored array that contains
  the operand (`mongoEq`).

Go `float64` literals are modelled as rationals, `time.Time` stamps as
naturals.
-/

namespace Inventory

/-- Modelled from the spec: the reserved scope and attribute names of the
`model` package (the package itself is not part of the sources; §3 and the
glossary of the spec name a reserved "system" scope holding the `group`,
`created` and `updated` attributes, and a standard "inventory" scope used
as the default). -/
def AttrScopeSystem : String := "system"

/-- Modelled from the spec: the standard inventory scope (`model.AttrScopeInventory`,
equal to the `DbScopeInventory` constant of the mongo file). -/
def AttrScopeInventory : String := "inventory"

/-- Modelled from the spec: `model.AttrNameGroup`. -/
def AttrNameGroup : String := "group"

/-- Modelled from the spec: `model.AttrNameCreated`. -/
def AttrNameCreated : String := "created"

/-- Modelled from the spec: `model.AttrNameUpdated`. -/
def AttrNameUpdated : String := "updated"

/-- Constant `DbDevGroup` from the mongo file. -/
def DbDevGroup : String := "group"

/-- A scalar attribute value: string, number (Go float64), boolean or
timestamp. -/
inductive AttrScalar where
  | str (s : String)
  | num (q : ℚ)
  | boolean (b : Bool)
  | time (t : Nat)
deriving DecidableEq

/-- A stored attribute value: a scalar or an array of scalars (the data
model of the spec, §3). -/
inductive AttrValue where
  | scalar (v : AttrScalar)
  | arr (elems : List AttrScalar)
deriving DecidableEq

/-- MongoDB equality of a query operand against a stored field: the field
is present and equals the operand, or is an array containing it.  A
missing field matches nothing (the operands in this file are never
null). -/
def mongoEq (target : AttrScalar) (stored : Option AttrValue) : Bool :=
  match stored with
  | none => false
  | some (.scalar v) => v == target
  | some (.arr l) => l.contains target

/-- The persisted per-attribute subdocument `{scope, name, value,
description}`; every field is optional because `$set` on a single dotted
path can create the subdocument with only that field. -/
structure StoredAttr where
  scope : Option String
  name : Option String
  value : Option AttrValue
  description : Option String
deriving DecidableEq

/-- The empty subdocument created by a dotted `$set` below a missing
key. -/
def StoredAttr.empty : StoredAttr := ⟨none, none, none, none⟩

/-- The `attributes` subdocument of one device, keyed by the composite
`"scope-name"` string. -/
abbrev AttrMap := String → Option StoredAttr

def AttrMap.empty : AttrMap := fun _ => none

def AttrMap.insert (m : AttrMap) (k : String) (a : StoredAttr) : AttrMap :=
  fun x => if x = k then some a else m x

def AttrMap.erase (m : AttrMap) (k : String) : AttrMap :=
  fun x => if x = k then none else m x

/-- The device collection keyed by `_id` (for the single-document update
paths). -/
abbrev Store := String → Option AttrMap

def Store.set (s : Store) (id : String) (d : AttrMap) : Store :=
  fun x => if x = id then some d else s x

/-- Model of `model.DeviceAttribute`: one attribute as submitted by a caller.  The
Go `Value` is an `interface{}` (absent when nil), `Description` a string
pointer. -/
structure DeviceAttribute where
  Scope : String
  Name : String
  Value : Option AttrValue
  Description : Option String
deriving DecidableEq

/-- The error taxonomy of the store layer (`store.ErrNoAttrName`,
`store.ErrDevNotFound`, `store.ErrGroupNotFound`, and wrapped backend
errors). -/
inductive StoreErr where
  | noAttrName
  | devNotFound
  | groupNotFound
  | storageFailure
deriving DecidableEq

/-- One entry of an update document: a full dotted path together with the
written value.  `whole k a` is a path `attributes.k` holding a complete
attribute subdocument; the remaining forms are paths
`attributes.k.{scope,name,value,description}`. -/
inductive SetEntry where
  | whole (key : String) (a : StoredAttr)
  | scopeF (key : String) (s : String)
  | nameF (key : String) (s : String)
  | valueF (key : String) (v : AttrValue)
  | descF (key : String) (s : String)
deriving DecidableEq

def SetEntry.key : SetEntry → String
  | .whole k _ => k
  | .scopeF k _ => k
  | .nameF k _ => k
  | .valueF k _ => k
  | .descF k _ => k

def SetEntry.isWhole : SetEntry → Bool
  | .whole _ _ => true
  | _ => false

/-- Application of `$set` for one dotted path into the `attributes` subdocument: a whole
path replaces the attribute record, a field path merges into the existing
record (creating it when missing). -/
def applyEntry (m : AttrMap) : SetEntry → AttrMap
  | .whole k a => m.insert k a
  | .scopeF k s => m.insert k { (m k).getD StoredAttr.empty with scope := some s }
  | .nameF k s => m.insert k { (m k).getD StoredAttr.empty with name := some s }
  | .valueF k v => m.insert k { (m k).getD StoredAttr.empty with value := some v }
  | .descF k s => m.insert k { (m k).getD StoredAttr.empty with description := some s }

def applyEntries (es : List SetEntry) (m : AttrMap) : AttrMap :=
  es.foldl applyEntry m

/-- A MongoDB update document is rejected when a whole path and a field
path name the same key (one dotted path would be a prefix of the other);
the check spans `$set` and `$setOnInsert`. -/
def hasConflict (es : List SetEntry) : Bool :=
  es.any fun e => e.isWhole && es.any fun f => !f.isWhole && f.key == e.key

/-- The effective scope of a submitted attribute: an empty scope defaults
to the standard inventory scope (`makeAttrUpsert`). -/
def effScope (a : DeviceAttribute) : String :=
  if a.Scope = "" then AttrScopeInventory else a.Scope

/-- The composite key built by `makeAttrField`: `"scope-name"` (the
`attributes.` prefix is implicit in `AttrMap`). -/
def mkKey (a : DeviceAttribute) : String :=
  effScope a ++ "-" ++ a.Name

/-- The update-document entries produced for one submitted attribute:
`scope` and `name` unconditionally, `value` only when the submission has a
non-absent value, `description` only when provided. -/
def attrEntries (a : DeviceAttribute) : List SetEntry :=
  [SetEntry.scopeF (mkKey a) (effScope a), SetEntry.nameF (mkKey a) a.Name]
    ++ (match a.Value with
        | some v => [SetEntry.valueF (mkKey a) v]
        | none => [])
    ++ (match a.Description with
        | some s => [SetEntry.descF (mkKey a) s]
        | none => [])

/-- Model of `makeAttrUpsert`: builds the `$set` document for a batch of submitted
attributes, rejecting the whole batch when any attribute has an empty
name. -/
def makeAttrUpsert : List DeviceAttribute → Except StoreErr (List SetEntry)
  | [] => .ok []
  | a :: rest =>
      if a.Name = "" then .error .noAttrName
      else
        match makeAttrUpsert rest with
        | .error e => .error e
        | .ok es => .ok (attrEntries a ++ es)

/-- The composite key of the system updated-timestamp attribute
(`updatedField` in `UpsertAttributes`). -/
def updatedKey : String := AttrScopeSystem ++ "-" ++ AttrNameUpdated

/-- The composite key of the system created-timestamp attribute
(`createdField` in `UpsertAttributes`). -/
def createdKey : String := AttrScopeSystem ++ "-" ++ AttrNameCreated

/-- The composite key of the reserved group attribute
(`DbDevAttributesGroup`, without the `attributes.` prefix). -/
def groupKey : String := AttrScopeSystem ++ "-" ++ AttrNameGroup

/-- The updated-timestamp attribute written on every upsert. -/
def updatedAttr (now : Nat) : StoredAttr :=
  ⟨some AttrScopeSystem, some AttrNameUpdated, some (.scalar (.time now)), none⟩

/-- The created-timestamp attribute written through `$setOnInsert`. -/
def createdAttr (now : Nat) : StoredAttr :=
  ⟨some AttrScopeSystem, some AttrNameCreated, some (.scalar (.time now)), none⟩

/-- Model of `UpsertAttributes` on the targeted device's document (`dev = none`
when no document with that `_id` exists): builds the `$set` document,
adds the updated stamp to it and the created stamp to `$setOnInsert`, and
applies the upsert.  A conflicting update document is rejected by the
server and surfaces as the (wrapped) driver error. -/
def UpsertAttributes (now : Nat) (attrs : List DeviceAttribute) (dev : Option AttrMap) :
    Except StoreErr AttrMap :=
  match makeAttrUpsert attrs with
  | .error e => .error e
  | .ok entries =>
      let setEntries := entries ++ [SetEntry.whole updatedKey (updatedAttr now)]
      let onInsert := [SetEntry.whole createdKey (createdAttr now)]
      if hasConflict (setEntries ++ onInsert) then .error .storageFailure
      else
        match dev with
        | some d => .ok (applyEntries setEntries d)
        | none => .ok (applyEntries setEntries (applyEntries onInsert AttrMap.empty))

/-- Model of `UpsertAttributes` as a transition on the whole collection: on error
the collection is untouched. -/
def upsertStep (s : Store) (id : String) (now : Nat) (attrs : List DeviceAttribute) :
    Store × Option StoreErr :=
  match UpsertAttributes now attrs (s id) with
  | .ok d => (s.set id d, none)
  | .error e => (s, some e)

/-- Model of `model.Device` as consumed by `AddDevice`. -/
structure Device where
  ID : String
  Group : String
  Attributes : List DeviceAttribute

/-- Model of `AddDevice`: materialises a non-empty group as a system-scoped group
attribute appended to the submitted attributes, then runs the normal
upsert path. -/
def AddDevice (s : Store) (now : Nat) (dev : Device) : Store × Option StoreErr :=
  upsertStep s dev.ID now
    (if dev.Group ≠ "" then
      dev.Attributes ++
        [⟨AttrScopeSystem, AttrNameGroup, some (.scalar (.str dev.Group)), none⟩]
    else dev.Attributes)

/-- Lookup of one attribute of one device in a `Store`. -/
def devAttr (s : Store) (id k : String) : Option StoredAttr :=
  (s id).bind fun d => d k

/-- The group attribute document written by `UpdateDeviceGroup` and
`UpdateDevicesGroup`. -/
def groupAttrDoc (g : String) : StoredAttr :=
  ⟨some AttrScopeSystem, some DbDevGroup, some (.scalar (.str g)), none⟩

/-- Model of `UpdateDeviceGroup`: `UpdateOne` on `{_id: devId}` with
`$set {attributes.system-group: …}`; the Go code returns
`store.ErrDevNotFound` whenever `ModifiedCount ≤ 0`, which covers both a
missing device and a no-op set on a device already holding exactly the
target group attribute. -/
def UpdateDeviceGroup (s : Store) (devId : String) (newGroup : String) :
    Store × Option StoreErr :=
  match s devId with
  | none => (s, some .devNotFound)
  | some d =>
      if d groupKey = some (groupAttrDoc newGroup) then (s, some .devNotFound)
      else (s.set devId (d.insert groupKey (groupAttrDoc newGroup)), none)

/-- Model of `UnsetDeviceGroup`: `UpdateMany` on
`{_id: id, attributes.system-group.value: groupName}` with
`$unset {attributes.system-group}`; zero modified documents is reported
as `store.ErrDevNotFound`.  The value condition is MongoDB field
equality (`mongoEq`). -/
def UnsetDeviceGroup (s : Store) (id : String) (groupName : String) :
    Store × Option StoreErr :=
  match s id with
  | none => (s, some .devNotFound)
  | some d =>
      if mongoEq (.str groupName) ((d groupKey).bind StoredAttr.value) then
        (s.set id (d.erase groupKey), none)
      else (s, some .devNotFound)

/-- One device as scanned by an aggregation: its `_id` and its
`attributes` subdocument. -/
structure StoredDevice where
  id : String
  attrs : AttrMap

/-- Model of `store.ComparisonOperator`: the store layer defines only equality
(`store.Eq`, compiled by `mongoOperator` to `$eq`). -/
inductive ComparisonOperator where
  | eq
deriving DecidableEq

/-- Model of `store.Filter` as used by `GetDevices`: attribute coordinates, the
string form of the operand, and the optional parsed-number form. -/
structure Filter where
  AttrName : String
  AttrScope : String
  Value : String
  ValueFloat : Option ℚ
  Operator : ComparisonOperator
deriving DecidableEq

/-- Model of `store.Sort` (named `SortCriteria` because `Sort` is reserved in
Lean). -/
structure SortCriteria where
  AttrScope : String
  AttrName : String
  Ascending : Bool
deriving DecidableEq

/-- Model of `store.ListQuery`.  Here `sortBy` models the Go field `Sort`; `Skip` is a
natural because a negative `$skip` is rejected by the server. -/
structure ListQuery where
  Skip : Nat
  Limit : Int
  Filters : List Filter
  sortBy : Option SortCriteria
  HasGroup : Option Bool
  GroupName : String

/-- The stored value at the `attributes.scope-name.value` path a filter
compiles to. -/
def filterTarget (f : Filter) (d : StoredDevice) : Option AttrValue :=
  (d.attrs (f.AttrScope ++ "-" ++ f.AttrName)).bind StoredAttr.value

/-- One compiled equality filter: with a parsed-number form present the
query is `$or` of equality against the string form and against the
number form; otherwise equality against the string form alone. -/
def matchesFilter (d : StoredDevice) (f : Filter) : Bool :=
  match f.ValueFloat with
  | some x =>
      mongoEq (.str f.Value) (filterTarget f d) || mongoEq (.num x) (filterTarget f d)
  | none => mongoEq (.str f.Value) (filterTarget f d)

/-- The stored value of the reserved group attribute of a device. -/
def groupValue (d : StoredDevice) : Option AttrValue :=
  (d.attrs groupKey).bind StoredAttr.value

/-- The `$match` stage of `GetDevices`: the conjunction of the group
filter (when `GroupName` is non-empty), the group existence filter (when
`HasGroup` is set, `$exists` on the whole group attribute), and all
equality filters. -/
def matchesQuery (fs : List Filter) (gn : String) (hg : Option Bool)
    (d : StoredDevice) : Bool :=
  (gn == "" || mongoEq (.str gn) (groupValue d))
    && (match hg with
        | none => true
        | some b => (d.attrs groupKey).isSome == b)
    && fs.all (matchesFilter d)

/-- BSON type rank used by the sort stage (missing < numbers < strings <
arrays < booleans < dates; enough for a total comparison here). -/
def scalarRank : AttrScalar → Nat
  | .num _ => 1
  | .str _ => 2
  | .boolean _ => 4
  | .time _ => 5

def scalarLe (a b : AttrScalar) : Bool :=
  match a, b with
  | .num x, .num y => x ≤ y
  | .str x, .str y => x ≤ y
  | .boolean x, .boolean y => !x || y
  | .time x, .time y => x ≤ y
  | _, _ => scalarRank a ≤ scalarRank b

def valueRank : Option AttrValue → Nat
  | none => 0
  | some (.scalar v) => scalarRank v
  | some (.arr _) => 3

/-- Lexicographic comparison of scalar arrays. -/
def arrLe : List AttrScalar → List AttrScalar → Bool
  | [], _ => true
  | _ :: _, [] => false
  | a :: as, b :: bs => if a == b then arrLe as bs else scalarLe a b

/-- Comparison of stored values for `$sort` (arrays compared
lexicographically). -/
def valueLe (a b : Option AttrValue) : Bool :=
  match a, b with
  | some (.scalar x), some (.scalar y) => scalarLe x y
  | some (.arr x), some (.arr y) => arrLe x y
  | _, _ => valueRank a ≤ valueRank b

def insertSorted {α : Type} (le : α → α → Bool) (x : α) : List α → List α
  | [] => [x]
  | y :: ys => if le x y then x :: y :: ys else y :: insertSorted le x ys

/-- A stable, kernel-computable sort standing in for the aggregation's
`$sort` stage. -/
def insertionSort {α : Type} (le : α → α → Bool) : List α → List α
  | [] => []
  | x :: xs => insertSorted le x (insertionSort le xs)

/-- The value a `$sort` on attribute `(scope, name)` orders by. -/
def sortValue (st : SortCriteria) (d : StoredDevice) : Option AttrValue :=
  (d.attrs (st.AttrScope ++ "-" ++ st.AttrName)).bind StoredAttr.value

/-- The sort stage of `GetDevices`: a no-op when the query carries no
sort criteria (`{$skip: 0}` in the source), otherwise a sort on the
attribute value, ascending or descending. -/
def sortDevices (st : Option SortCriteria) (l : List StoredDevice) :
    List StoredDevice :=
  match st with
  | none => l
  | some st =>
      insertionSort
        (fun a b =>
          if st.Ascending then valueLe (sortValue st a) (sortValue st b)
          else valueLe (sortValue st b) (sortValue st a)) l

/-- Model of `GetDevices` (the successful aggregation): one pass producing the
`results` facet (sort, `$skip`, and `$limit` only when the limit is
positive) and the `totalCount` facet (`$count` of the matched set). -/
def GetDevices (q : ListQuery) (coll : List StoredDevice) :
    List StoredDevice × Nat :=
  let matched := coll.filter (matchesQuery q.Filters q.GroupName q.HasGroup)
  let afterSkip := (sortDevices q.sortBy matched).drop q.Skip
  let page := if 0 < q.Limit then afterSkip.take q.Limit.toNat else afterSkip
  (page, matched.length)

/-- How the aggregation round-trip can go: a successful cursor, a failed
execution (`c.Aggregate` returns an error; its cursor yields no row), or
a row that fails to decode. -/
inductive AggOutcome where
  | success
  | execFailure
  | decodeFailure

/-- The full `GetDevices` body including its error handling: the error
returned by `c.Aggregate` is never checked, so a failed execution takes
the `!cursor.Next` branch and returns `(nil, 0, nil)`; a decode failure
returns `(nil, -1, wrapped error)`. -/
def GetDevicesRun (q : ListQuery) (coll : List StoredDevice) :
    AggOutcome → (List StoredDevice × Int) × Option StoreErr
  | .success =>
      let r := GetDevices q coll
      ((r.1, (r.2 : Int)), none)
  | .execFailure => (([], 0), none)
  | .decodeFailure => (([], -1), some .storageFailure)

/-- Model of `GetDevicesByGroup`: `FindOne` on the group-value equality validates
that some device carries the group (`ErrGroupNotFound` otherwise), then
the generic listing runs with `GroupName` set and
`HasGroup = (group != "")`, and only the identifiers are kept. -/
def GetDevicesByGroup (coll : List StoredDevice) (group : String)
    (skip : Nat) (limit : Int) : Except StoreErr (List String × Nat) :=
  if coll.any (fun d => mongoEq (.str group) (groupValue d)) then
    let r := GetDevices
      { Skip := skip, Limit := limit, Filters := [], sortBy := none,
        HasGroup := some (group != ""), GroupName := group } coll
    .ok (r.1.map StoredDevice.id, r.2)
  else .error .groupNotFound

/-! ### Helper lemmas -/

theorem AttrMap.insert_same (m : AttrMap) (k : String) (a : StoredAttr) :
    m.insert k a k = some a := by
  simp [AttrMap.insert]

theorem AttrMap.insert_other (m : AttrMap) (k x : String) (a : StoredAttr)
    (h : x ≠ k) : m.insert k a x = m x := by
  simp [AttrMap.insert, h]

theorem AttrMap.erase_same (m : AttrMap) (k : String) : m.erase k k = none := by
  simp [AttrMap.erase]

theorem AttrMap.erase_other (m : AttrMap) (k x : String) (h : x ≠ k) :
    m.erase k x = m x := by
  simp [AttrMap.erase, h]

theorem Store.set_same (s : Store) (id : String) (d : AttrMap) :
    s.set id d id = some d := by
  simp [Store.set]

theorem Store.set_other (s : Store) (id x : String) (d : AttrMap) (h : x ≠ id) :
    s.set id d x = s x := by
  simp [Store.set, h]

theorem applyEntry_key_other (m : AttrMap) (e : SetEntry) (x : String)
    (h : x ≠ e.key) : applyEntry m e x = m x := by
  cases e <;>
    · simp only [SetEntry.key] at h
      simp [applyEntry, AttrMap.insert_other _ _ _ _ h]

theorem applyEntries_append (es fs : List SetEntry) (m : AttrMap) :
    applyEntries (es ++ fs) m = applyEntries fs (applyEntries es m) := by
  simp [applyEntries, List.foldl_append]

theorem applyEntries_cons (e : SetEntry) (es : List SetEntry) (m : AttrMap) :
    applyEntries (e :: es) m = applyEntries es (applyEntry m e) := rfl

theorem applyEntries_untouched (es : List SetEntry) (m : AttrMap) (x : String)
    (h : ∀ e ∈ es, x ≠ e.key) : applyEntries es m x = m x := by
  induction es generalizing m with
  | nil => rfl
  | cons e es ih =>
      rw [applyEntries_cons, ih (applyEntry m e) (fun f hf => h f (List.mem_cons_of_mem e hf))]
      exact applyEntry_key_other m e x (h e (List.mem_cons_self e es))

theorem hasConflict_of_pair {es : List SetEntry} {w f : SetEntry}
    (hw : w ∈ es) (hww : w.isWhole = true) (hf : f ∈ es)
    (hfw : f.isWhole = false) (hk : f.key = w.key) : hasConflict es = true := by
  simp only [hasConflict, List.any_eq_true, Bool.and_eq_true]
  exact ⟨w, hw, hww, ⟨f, hf, by simp [hfw], by simp [hk]⟩⟩

theorem no_subkey_of_not_conflict {es : List SetEntry} {w : SetEntry}
    (hw : w ∈ es) (hww : w.isWhole = true) (h : hasConflict es = false) :
    ∀ f ∈ es, f.isWhole = false → f.key ≠ w.key := by
  intro f hf hfw hk
  rw [hasConflict_of_pair hw hww hf hfw hk] at h
  cases h

theorem makeAttrUpsert_error_of_empty {attrs : List DeviceAttribute}
    (h : ∃ a ∈ attrs, a.Name = "") :
    makeAttrUpsert attrs = .error .noAttrName := by
  induction attrs with
  | nil => simp at h
  | cons a rest ih =>
      rcases h with ⟨b, hb, hname⟩
      rcases List.mem_cons.mp hb with rfl | hb2
      · simp [makeAttrUpsert, hname]
      · by_cases ha : a.Name = ""
        · simp [makeAttrUpsert, ha]
        · simp [makeAttrUpsert, ha, ih ⟨b, hb2, hname⟩]

theorem attrEntries_not_whole (a : DeviceAttribute) :
    ∀ e ∈ attrEntries a, e.isWhole = false := by
  intro e he
  cases hv : a.Value <;> cases hd : a.Description <;>
    · simp [attrEntries, hv, hd] at he
      rcases he with rfl | rfl | rfl | rfl <;> rfl

theorem makeAttrUpsert_ok_not_whole
    {attrs : List DeviceAttribute} {es : List SetEntry}
    (h : makeAttrUpsert attrs = .ok es) : ∀ e ∈ es, e.isWhole = false := by
  induction attrs generalizing es with
  | nil =>
      simp [makeAttrUpsert] at h
      subst h; simp
  | cons a rest ih =>
      by_cases ha : a.Name = ""
      · simp [makeAttrUpsert, ha] at h
      · simp only [makeAttrUpsert, if_neg ha] at h
        cases hrec : makeAttrUpsert rest with
        | error e => rw [hrec] at h; cases h
        | ok fs =>
            rw [hrec] at h
            cases h
            intro e he
            rcases List.mem_append.mp he with h1 | h2
            · exact attrEntries_not_whole a e h1
            · exact ih hrec e h2

/-- The shape of the update applied by a successful `UpsertAttributes` on
an existing device document. -/
theorem UpsertAttributes_ok_elim_some {now : Nat} {attrs : List DeviceAttribute}
    {d0 d : AttrMap}
    (h : UpsertAttributes now attrs (some d0) = .ok d) :
    ∃ entries, makeAttrUpsert attrs = .ok entries ∧
      hasConflict ((entries ++ [SetEntry.whole updatedKey (updatedAttr now)]) ++
          [SetEntry.whole createdKey (createdAttr now)]) = false ∧
      d = applyEntries (entries ++ [SetEntry.whole updatedKey (updatedAttr now)]) d0 := by
  unfold UpsertAttributes at h
  cases hmk : makeAttrUpsert attrs with
  | error e => rw [hmk] at h; cases h
  | ok entries =>
      rw [hmk] at h
      simp only at h
      have hc : hasConflict ((entries ++ [SetEntry.whole updatedKey (updatedAttr now)]) ++
          [SetEntry.whole createdKey (createdAttr now)]) = false := by
        by_cases hc : hasConflict ((entries ++ [SetEntry.whole updatedKey (updatedAttr now)]) ++
            [SetEntry.whole createdKey (createdAttr now)]) = true
        · rw [if_pos hc] at h; cases h
        · simpa using hc
      have hcc : ¬ (hasConflict ((entries ++ [SetEntry.whole updatedKey (updatedAttr now)]) ++
          [SetEntry.whole createdKey (createdAttr now)]) = true) := by
        rw [hc]; exact Bool.false_ne_true
      rw [if_neg hcc] at h
      cases h
      exact ⟨entries, rfl, hc, rfl⟩

/-- The shape of the document created by a successful `UpsertAttributes`
when no device document exists yet. -/
theorem UpsertAttributes_ok_elim_none {now : Nat} {attrs : List DeviceAttribute}
    {d : AttrMap}
    (h : UpsertAttributes now attrs none = .ok d) :
    ∃ entries, makeAttrUpsert attrs = .ok entries ∧
      hasConflict ((entries ++ [SetEntry.whole updatedKey (updatedAttr now)]) ++
          [SetEntry.whole createdKey (createdAttr now)]) = false ∧
      d = applyEntries (entries ++ [SetEntry.whole updatedKey (updatedAttr now)])
            (applyEntries [SetEntry.whole createdKey (createdAttr now)] AttrMap.empty) := by
  unfold UpsertAttributes at h
  cases hmk : makeAttrUpsert attrs with
  | error e => rw [hmk] at h; cases h
  | ok entries =>
      rw [hmk] at h
      simp only at h
      have hc : hasConflict ((entries ++ [SetEntry.whole updatedKey (updatedAttr now)]) ++
          [SetEntry.whole createdKey (createdAttr now)]) = false := by
        by_cases hc : hasConflict ((entries ++ [SetEntry.whole updatedKey (updatedAttr now)]) ++
            [SetEntry.whole createdKey (createdAttr now)]) = true
        · rw [if_pos hc] at h; cases h
        · simpa using hc
      have hcc : ¬ (hasConflict ((entries ++ [SetEntry.whole updatedKey (updatedAttr now)]) ++
          [SetEntry.whole createdKey (createdAttr now)]) = true) := by
        rw [hc]; exact Bool.false_ne_true
      rw [if_neg hcc] at h
      cases h
      exact ⟨entries, rfl, hc, rfl⟩

theorem updatedKey_ne_createdKey : updatedKey ≠ createdKey := by decide

/-- In a conflict-free upsert document, no entry produced from the
submitted attributes names the updated- or created-timestamp key. -/
theorem entries_away_from_stamps {now : Nat} {entries : List SetEntry}
    (hnw : ∀ e ∈ entries, e.isWhole = false)
    (hc : hasConflict ((entries ++ [SetEntry.whole updatedKey (updatedAttr now)]) ++
        [SetEntry.whole createdKey (createdAttr now)]) = false) :
    ∀ e ∈ entries, e.key ≠ updatedKey ∧ e.key ≠ createdKey := by
  intro e he
  constructor
  · have := no_subkey_of_not_conflict
      (w := SetEntry.whole updatedKey (updatedAttr now)) (by simp) rfl hc e
      (by simp [he]) (hnw e he)
    simpa [SetEntry.key] using this
  · have := no_subkey_of_not_conflict
      (w := SetEntry.whole createdKey (createdAttr now)) (by simp) rfl hc e
      (by simp [he]) (hnw e he)
    simpa [SetEntry.key] using this

/-- C3: a successful `UpsertAttributes` writes the system updated
timestamp at the current time; the system created timestamp is written at
the current time exactly when the call creates the device record, and a
call on an existing device leaves the created timestamp as it was. -/
theorem C3_timestamp_stamping (s : Store) (id : String) (now : Nat)
    (attrs : List DeviceAttribute)
    (h : (upsertStep s id now attrs).2 = none) :
    devAttr (upsertStep s id now attrs).1 id updatedKey = some (updatedAttr now) ∧
    (s id = none →
      devAttr (upsertStep s id now attrs).1 id createdKey = some (createdAttr now)) ∧
    (∀ d0, s id = some d0 →
      devAttr (upsertStep s id now attrs).1 id createdKey = d0 createdKey) := by
  cases hu : UpsertAttributes now attrs (s id) with
  | error e => unfold upsertStep at h; rw [hu] at h; cases h
  | ok d =>
      have hstep : upsertStep s id now attrs = (s.set id d, none) := by
        unfold upsertStep; rw [hu]
      have hlook : ∀ k, devAttr (upsertStep s id now attrs).1 id k = d k := by
        intro k
        rw [hstep]
        simp [devAttr, Store.set_same]
      have haway : ∀ entries, makeAttrUpsert attrs = .ok entries →
          hasConflict ((entries ++ [SetEntry.whole updatedKey (updatedAttr now)]) ++
            [SetEntry.whole createdKey (createdAttr now)]) = false →
          ∀ e ∈ entries ++ [SetEntry.whole updatedKey (updatedAttr now)],
            createdKey ≠ e.key := by
        intro entries hmk hc e he
        rcases List.mem_append.mp he with h1 | h2
        · exact fun hk =>
            (entries_away_from_stamps (makeAttrUpsert_ok_not_whole hmk) hc e h1).2 hk.symm
        · rcases List.mem_singleton.mp h2 with rfl
          exact fun hk => updatedKey_ne_createdKey.symm (by simpa [SetEntry.key] using hk)
      refine ⟨?_, ?_, ?_⟩
      · rw [hlook]
        cases hs : s id with
        | none =>
            rw [hs] at hu
            obtain ⟨entries, hmk, hc, hd⟩ := UpsertAttributes_ok_elim_none hu
            rw [hd, applyEntries_append]
            simp [applyEntries, applyEntry, AttrMap.insert_same]
        | some d0 =>
            rw [hs] at hu
            obtain ⟨entries, hmk, hc, hd⟩ := UpsertAttributes_ok_elim_some hu
            rw [hd, applyEntries_append]
            simp [applyEntries, applyEntry, AttrMap.insert_same]
      · intro hnone
        rw [hlook]
        rw [hnone] at hu
        obtain ⟨entries, hmk, hc, hd⟩ := UpsertAttributes_ok_elim_none hu
        rw [hd, applyEntries_untouched _ _ _ (haway entries hmk hc)]
        simp [applyEntries, applyEntry, AttrMap.insert_same]
      · intro d0 hsome
        rw [hlook]
        rw [hsome] at hu
        obtain ⟨entries, hmk, hc, hd⟩ := UpsertAttributes_ok_elim_some hu
        rw [hd, applyEntries_untouched _ _ _ (haway entries hmk hc)]

def d0W : AttrMap := fun k => if k = createdKey then some (createdAttr 3) else none

def sW : Store := fun x => if x = "d1" then some d0W else none

def aW : DeviceAttribute :=
  ⟨"inventory", "sn", some (.scalar (.str "X")), none⟩

theorem C3_timestamp_stamping_witness :
    devAttr (upsertStep sW "d1" 5 [aW]).1 "d1" updatedKey = some (updatedAttr 5) ∧
    devAttr (upsertStep sW "d1" 5 [aW]).1 "d1" createdKey = some (createdAttr 3) := by
  have h : (upsertStep sW "d1" 5 [aW]).2 = none := rfl
  have hmain := C3_timestamp_stamping sW "d1" 5 [aW] h
  refine ⟨hmain.1, ?_⟩
  rw [hmain.2.2 d0W rfl]
  rfl

/-- C10: an upsert with an empty attribute batch succeeds; it creates a
missing device with exactly the created and updated stamps, and on an
existing device it refreshes the updated stamp and touches nothing
else. -/
theorem C10_empty_batch_upsert (s : Store) (id : String) (now : Nat) :
    (upsertStep s id now []).2 = none ∧
    devAttr (upsertStep s id now []).1 id updatedKey = some (updatedAttr now) ∧
    (s id = none →
      devAttr (upsertStep s id now []).1 id createdKey = some (createdAttr now) ∧
      ∀ k, k ≠ createdKey → k ≠ updatedKey →
        devAttr (upsertStep s id now []).1 id k = none) ∧
    (∀ d0, s id = some d0 →
      devAttr (upsertStep s id now []).1 id createdKey = d0 createdKey ∧
      ∀ k, k ≠ updatedKey → devAttr (upsertStep s id now []).1 id k = d0 k) ∧
    (∀ id2, id2 ≠ id → (upsertStep s id now []).1 id2 = s id2) := by
  cases hs : s id with
  | none =>
      have hstep : upsertStep s id now [] =
          (s.set id ((AttrMap.empty.insert createdKey (createdAttr now)).insert
            updatedKey (updatedAttr now)), none) := by
        unfold upsertStep; rw [hs]; rfl
      refine ⟨by rw [hstep], ?_, ?_, ?_, ?_⟩
      · rw [hstep]
        simp [devAttr, Store.set_same, AttrMap.insert_same]
      · intro _
        constructor
        · rw [hstep]
          simp [devAttr, Store.set_same,
            AttrMap.insert_other _ _ _ _ updatedKey_ne_createdKey.symm,
            AttrMap.insert_same]
        · intro k hkc hku
          rw [hstep]
          simp [devAttr, Store.set_same, AttrMap.insert_other _ _ _ _ hku,
            AttrMap.insert_other _ _ _ _ hkc, AttrMap.empty]
      · intro d0 hd0
        exact Option.noConfusion hd0
      · intro id2 hid
        rw [hstep]
        simp [Store.set_other _ _ _ _ hid]
  | some d0 =>
      have hstep : upsertStep s id now [] =
          (s.set id (d0.insert updatedKey (updatedAttr now)), none) := by
        unfold upsertStep; rw [hs]; rfl
      refine ⟨by rw [hstep], ?_, ?_, ?_, ?_⟩
      · rw [hstep]
        simp [devAttr, Store.set_same, AttrMap.insert_same]
      · intro hnone
        exact Option.noConfusion hnone
      · intro d1 hd1
        cases hd1
        constructor
        · rw [hstep]
          simp [devAttr, Store.set_same,
            AttrMap.insert_other _ _ _ _ updatedKey_ne_createdKey.symm]
        · intro k hku
          rw [hstep]
          simp [devAttr, Store.set_same, AttrMap.insert_other _ _ _ _ hku]
      · intro id2 hid
        rw [hstep]
        simp [Store.set_other _ _ _ _ hid]

/-- A sample device document holding one plain inventory attribute. -/
def dEx : AttrMap := fun k =>
  if k = "inventory-mac" then
    some ⟨some "inventory", some "mac", some (.scalar (.str "aa:bb")), none⟩
  else none

/-- A sample store holding the single device `"1"`. -/
def sEx : Store := fun x => if x = "1" then some dEx else none

theorem C10_empty_batch_upsert_witness :
    devAttr (upsertStep sEx "1" 9 []).1 "1" updatedKey = some (updatedAttr 9) ∧
    devAttr (upsertStep sEx "1" 9 []).1 "1" "inventory-mac" =
      some ⟨some "inventory", some "mac", some (.scalar (.str "aa:bb")), none⟩ ∧
    (upsertStep sEx "1" 9 []).1 "2" = none := by
  have hmain := C10_empty_batch_upsert sEx "1" 9
  refine ⟨hmain.2.1, ?_, ?_⟩
  · have h2 := (hmain.2.2.2.1 dEx rfl).2 "inventory-mac" (by decide)
    rw [h2]; rfl
  · have h3 := hmain.2.2.2.2 "2" (by decide)
    rw [h3]; rfl

/-- C5: a batch containing an attribute with an empty name makes
`UpsertAttributes` (and hence `AddDevice`) fail with the
invalid-attribute error before any write: the whole store is returned
unchanged. -/
theorem C5_empty_name_rejected (s : Store) (id : String) (now : Nat)
    (attrs : List DeviceAttribute) (dev : Device)
    (h : ∃ a ∈ attrs, a.Name = "") (hdev : dev.Attributes = attrs) :
    upsertStep s id now attrs = (s, some .noAttrName) ∧
    AddDevice s now dev = (s, some .noAttrName) := by
  subst hdev
  have hmk := makeAttrUpsert_error_of_empty h
  constructor
  · unfold upsertStep UpsertAttributes
    rw [hmk]
  · have h2 : ∃ a ∈ (if dev.Group ≠ "" then
        dev.Attributes ++
          [⟨AttrScopeSystem, AttrNameGroup, some (.scalar (.str dev.Group)), none⟩]
        else dev.Attributes), a.Name = "" := by
      rcases h with ⟨a, ha, hname⟩
      refine ⟨a, ?_, hname⟩
      split
      · exact List.mem_append_left _ ha
      · exact ha
    unfold AddDevice upsertStep UpsertAttributes
    rw [makeAttrUpsert_error_of_empty h2]

theorem C5_empty_name_rejected_witness :
    upsertStep sEx "1" 7 [⟨"inventory", "", none, none⟩] = (sEx, some .noAttrName) ∧
    AddDevice sEx 7 ⟨"1", "g", [⟨"inventory", "", none, none⟩]⟩ =
      (sEx, some .noAttrName) :=
  C5_empty_name_rejected sEx "1" 7 [⟨"inventory", "", none, none⟩]
    ⟨"1", "g", [⟨"inventory", "", none, none⟩]⟩
    ⟨⟨"inventory", "", none, none⟩, by simp, rfl⟩ rfl

/-- Field lookups below one attribute key. -/
def lookScope (m : AttrMap) (k : String) : Option String :=
  (m k).bind StoredAttr.scope

def lookName (m : AttrMap) (k : String) : Option String :=
  (m k).bind StoredAttr.name

def lookValue (m : AttrMap) (k : String) : Option AttrValue :=
  (m k).bind StoredAttr.value

def lookDesc (m : AttrMap) (k : String) : Option String :=
  (m k).bind StoredAttr.description

/-- The `$set` document of `makeAttrUpsert` applied to a device's
attribute map (the merge itself, without the timestamp stamping). -/
def applyUpsert (attrs : List DeviceAttribute) (d : AttrMap) :
    Except StoreErr AttrMap :=
  match makeAttrUpsert attrs with
  | .ok es => .ok (applyEntries es d)
  | .error e => .error e

/-- The merge of a single submitted attribute. -/
def mergeOne (a : DeviceAttribute) (d : AttrMap) : AttrMap :=
  applyEntries (attrEntries a) d

theorem attrEntries_key (a : DeviceAttribute) :
    ∀ e ∈ attrEntries a, e.key = mkKey a := by
  intro e he
  cases hv : a.Value <;> cases hdsc : a.Description <;>
    · simp [attrEntries, hv, hdsc] at he
      rcases he with rfl | rfl | rfl | rfl <;> rfl

theorem getD_value (m : AttrMap) (k : String) :
    ((m k).getD StoredAttr.empty).value = lookValue m k := by
  cases h : m k <;> simp [lookValue, h, StoredAttr.empty]

theorem getD_desc (m : AttrMap) (k : String) :
    ((m k).getD StoredAttr.empty).description = lookDesc m k := by
  cases h : m k <;> simp [lookDesc, h, StoredAttr.empty]

theorem mergeOne_at_key (a : DeviceAttribute) (d : AttrMap) :
    mergeOne a d (mkKey a) = some
      { scope := some (effScope a)
        name := some a.Name
        value := match a.Value with
          | some v => some v
          | none => ((d (mkKey a)).getD StoredAttr.empty).value
        description := match a.Description with
          | some t => some t
          | none => ((d (mkKey a)).getD StoredAttr.empty).description } := by
  cases hv : a.Value <;> cases hdsc : a.Description <;>
    simp [mergeOne, attrEntries, hv, hdsc, applyEntries, applyEntry, AttrMap.insert]

/-- C4: merging one submitted attribute with a non-empty name writes its
scope (defaulted to the inventory scope when empty) and name
unconditionally, writes the value only when the submission provides one,
writes the description only when provided, leaves an omitted value or
description untouched, and touches no other attribute key — so successive
partial submissions are field-additive. -/
theorem C4_merge_field_rules (a : DeviceAttribute) (d : AttrMap)
    (h : ¬ a.Name = "") :
    applyUpsert [a] d = .ok (mergeOne a d) ∧
    lookScope (mergeOne a d) (mkKey a) = some (effScope a) ∧
    lookName (mergeOne a d) (mkKey a) = some a.Name ∧
    (∀ v, a.Value = some v → lookValue (mergeOne a d) (mkKey a) = some v) ∧
    (a.Value = none → lookValue (mergeOne a d) (mkKey a) = lookValue d (mkKey a)) ∧
    (∀ t, a.Description = some t → lookDesc (mergeOne a d) (mkKey a) = some t) ∧
    (a.Description = none → lookDesc (mergeOne a d) (mkKey a) = lookDesc d (mkKey a)) ∧
    (∀ k, k ≠ mkKey a → mergeOne a d k = d k) := by
  refine ⟨?_, ?_, ?_, ?_, ?_, ?_, ?_, ?_⟩
  · simp [applyUpsert, makeAttrUpsert, h, mergeOne, applyEntries]
  · simp [lookScope, mergeOne_at_key]
  · simp [lookName, mergeOne_at_key]
  · intro v hv
    simp [lookValue, mergeOne_at_key, hv]
  · intro hv
    unfold lookValue
    rw [mergeOne_at_key]
    cases hdk : d (mkKey a) <;> simp [hv, hdk, StoredAttr.empty]
  · intro t ht
    simp [lookDesc, mergeOne_at_key, ht]
  · intro hdsc
    unfold lookDesc
    rw [mergeOne_at_key]
    cases hdk : d (mkKey a) <;> simp [hdsc, hdk, StoredAttr.empty]
  · intro k hk
    exact applyEntries_untouched _ _ _
      (fun e he => fun hke => hk (hke ▸ (attrEntries_key a e he)))

/-- First submission of the field-additive scenario: `{name "sn", value "X"}`
with the scope left empty. -/
def aSn1 : DeviceAttribute := ⟨"", "sn", some (.scalar (.str "X")), none⟩

/-- Second submission: `{name "sn", description "d"}`. -/
def aSn2 : DeviceAttribute := ⟨"", "sn", none, some "d"⟩

/-- The document after the first submission. -/
def dSn1 : AttrMap := mergeOne aSn1 AttrMap.empty

theorem C4_merge_field_rules_witness :
    applyUpsert [aSn2] dSn1 = .ok (mergeOne aSn2 dSn1) ∧
    lookValue (mergeOne aSn2 dSn1) "inventory-sn" = some (.scalar (.str "X")) ∧
    lookDesc (mergeOne aSn2 dSn1) "inventory-sn" = some "d" ∧
    lookScope (mergeOne aSn2 dSn1) "inventory-sn" = some "inventory" ∧
    lookName (mergeOne aSn2 dSn1) "inventory-sn" = some "sn" := by
  have hm := C4_merge_field_rules aSn2 dSn1 (by decide)
  refine ⟨hm.1, ?_, ?_, ?_, ?_⟩
  · have hv := hm.2.2.2.2.1 rfl
    rw [show ("inventory-sn" : String) = mkKey aSn2 from rfl, hv]
    rfl
  · exact hm.2.2.2.2.2.1 "d" rfl
  · exact hm.2.1
  · exact hm.2.2.1

/-- A device document already holding exactly the group attribute for
group `"g"` (as `UpdateDeviceGroup` itself writes it). -/
def dG : AttrMap := fun k => if k = groupKey then some (groupAttrDoc "g") else none

/-- A store holding the single device `"1"`, already in group `"g"`. -/
def sG : Store := fun x => if x = "1" then some dG else none

/-- C6 counterexample: assigning group `"g"` to device `"1"`, which
exists and already carries exactly that group attribute, modifies zero
documents, so the code returns `DeviceNotFound` even though the targeted
device exists. -/
theorem C6_counterexample :
    sG "1" = some dG ∧ (UpdateDeviceGroup sG "1" "g").2 = some .devNotFound := by
  exact ⟨rfl, rfl⟩

/-- C6, amended: `UpdateDeviceGroup` returns `DeviceNotFound` exactly
when the update modifies zero documents — the device does not exist, or
it exists and already holds exactly the target group attribute; in every
other case it writes the group attribute, leaves everything else
unchanged, and returns no error. -/
theorem C6_update_group_modified (s : Store) (id g : String) :
    (s id = none → UpdateDeviceGroup s id g = (s, some .devNotFound)) ∧
    (∀ d, s id = some d → d groupKey = some (groupAttrDoc g) →
        UpdateDeviceGroup s id g = (s, some .devNotFound)) ∧
    (∀ d, s id = some d → ¬ d groupKey = some (groupAttrDoc g) →
        (UpdateDeviceGroup s id g).2 = none ∧
        devAttr (UpdateDeviceGroup s id g).1 id groupKey = some (groupAttrDoc g) ∧
        (∀ k, k ≠ groupKey →
          devAttr (UpdateDeviceGroup s id g).1 id k = devAttr s id k) ∧
        (∀ id2, id2 ≠ id → (UpdateDeviceGroup s id g).1 id2 = s id2)) := by
  refine ⟨?_, ?_, ?_⟩
  · intro hs
    unfold UpdateDeviceGroup
    rw [hs]
  · intro d hs hgrp
    unfold UpdateDeviceGroup
    rw [hs]
    simp only [if_pos hgrp]
  · intro d hs hgrp
    have hstep : UpdateDeviceGroup s id g =
        (s.set id (d.insert groupKey (groupAttrDoc g)), none) := by
      unfold UpdateDeviceGroup
      rw [hs]
      simp only [if_neg hgrp]
    refine ⟨by rw [hstep], ?_, ?_, ?_⟩
    · rw [hstep]
      simp [devAttr, Store.set_same, AttrMap.insert_same]
    · intro k hk
      rw [hstep]
      simp [devAttr, Store.set_same, AttrMap.insert_other _ _ _ _ hk, hs]
    · intro id2 hid
      rw [hstep]
      simp [Store.set_other _ _ _ _ hid]

theorem C6_update_group_modified_witness :
    (UpdateDeviceGroup sEx "1" "g").2 = none ∧
    devAttr (UpdateDeviceGroup sEx "1" "g").1 "1" groupKey = some (groupAttrDoc "g") ∧
    devAttr (UpdateDeviceGroup sEx "1" "g").1 "1" "inventory-mac" =
      some ⟨some "inventory", some "mac", some (.scalar (.str "aa:bb")), none⟩ ∧
    UpdateDeviceGroup sEx "2" "g" = (sEx, some .devNotFound) := by
  have hset := (C6_update_group_modified sEx "1" "g").2.2 dEx rfl (by decide)
  refine ⟨hset.1, hset.2.1, ?_, ?_⟩
  · have hk := hset.2.2.1 "inventory-mac" (by decide)
    rw [hk]
    rfl
  · exact (C6_update_group_modified sEx "2" "g").1 rfl

/-- MongoDB equality in terms of the stored value: the stored value is
the operand itself, or an array containing it. -/
theorem mongoEq_true_iff (t : AttrScalar) (st : Option AttrValue) :
    mongoEq t st = true ↔
      st = some (.scalar t) ∨ ∃ l, st = some (.arr l) ∧ t ∈ l := by
  cases st with
  | none => simp [mongoEq]
  | some v =>
      cases v with
      | scalar x => simp [mongoEq, beq_iff_eq]
      | arr l => simp [mongoEq, List.elem_iff, List.contains]

/-- A device document whose group attribute holds the array value
`["g", "h"]` (writable through `UpsertAttributes` on the system scope). -/
def dArrG : AttrMap := fun k =>
  if k = groupKey then
    some ⟨some "system", some "group", some (.arr [.str "g", .str "h"]), none⟩
  else none

/-- A store holding the single device `"1"` with the array-valued group
attribute. -/
def sArrG : Store := fun x => if x = "1" then some dArrG else none

/-- C7 counterexample: the stored group value of device `"1"` is the
array `["g", "h"]`, which does not equal the expected name `"g"`, yet the
compare-and-clear filter matches (array containment) and the group
attribute is removed without error. -/
theorem C7_counterexample :
    (dArrG groupKey).bind StoredAttr.value ≠ some (.scalar (.str "g")) ∧
    (UnsetDeviceGroup sArrG "1" "g").2 = none ∧
    devAttr (UnsetDeviceGroup sArrG "1" "g").1 "1" groupKey = none := by
  refine ⟨by decide, rfl, rfl⟩

/-- C7, amended: `UnsetDeviceGroup` removes the reserved group attribute
exactly when the device exists and its stored group value MongoDB-matches
the expected name (equals it, or is an array containing it); in every
other case it returns `DeviceNotFound` and leaves the store unchanged. -/
theorem C7_compare_and_clear (s : Store) (id g : String) :
    ((∀ d, s id = some d →
        mongoEq (.str g) ((d groupKey).bind StoredAttr.value) = false) →
      UnsetDeviceGroup s id g = (s, some .devNotFound)) ∧
    (∀ d, s id = some d →
      mongoEq (.str g) ((d groupKey).bind StoredAttr.value) = true →
        (UnsetDeviceGroup s id g).2 = none ∧
        devAttr (UnsetDeviceGroup s id g).1 id groupKey = none ∧
        (∀ k, k ≠ groupKey →
          devAttr (UnsetDeviceGroup s id g).1 id k = devAttr s id k) ∧
        (∀ id2, id2 ≠ id → (UnsetDeviceGroup s id g).1 id2 = s id2)) ∧
    (∀ d, s id = some d →
      (mongoEq (.str g) ((d groupKey).bind StoredAttr.value) = true ↔
        (d groupKey).bind StoredAttr.value = some (.scalar (.str g)) ∨
        ∃ l, (d groupKey).bind StoredAttr.value = some (.arr l) ∧
          AttrScalar.str g ∈ l)) := by
  refine ⟨?_, ?_, ?_⟩
  · intro hno
    cases hs : s id with
    | none => unfold UnsetDeviceGroup; rw [hs]
    | some d =>
        unfold UnsetDeviceGroup
        rw [hs]
        simp only [hno d hs, Bool.false_eq_true, if_false]
  · intro d hs hmatch
    have hstep : UnsetDeviceGroup s id g = (s.set id (d.erase groupKey), none) := by
      unfold UnsetDeviceGroup
      rw [hs]
      simp only [hmatch, if_true]
    refine ⟨by rw [hstep], ?_, ?_, ?_⟩
    · rw [hstep]
      simp [devAttr, Store.set_same, AttrMap.erase_same]
    · intro k hk
      rw [hstep]
      simp [devAttr, Store.set_same, AttrMap.erase_other _ _ _ hk, hs]
    · intro id2 hid
      rw [hstep]
      simp [Store.set_other _ _ _ _ hid]
  · intro d hs
    exact mongoEq_true_iff _ _

theorem C7_compare_and_clear_witness :
    UnsetDeviceGroup sG "1" "other" = (sG, some .devNotFound) ∧
    (UnsetDeviceGroup sG "1" "g").2 = none ∧
    devAttr (UnsetDeviceGroup sG "1" "g").1 "1" groupKey = none ∧
    UnsetDeviceGroup sG "2" "g" = (sG, some .devNotFound) := by
  have hclear := (C7_compare_and_clear sG "1" "g").2.1 dG rfl (by decide)
  refine ⟨?_, hclear.1, hclear.2.1, ?_⟩
  · refine (C7_compare_and_clear sG "1" "other").1 ?_
    intro d hd
    cases hd
    decide
  · refine (C7_compare_and_clear sG "2" "g").1 ?_
    intro d hd
    cases hd

theorem length_insertSorted {α : Type} (le : α → α → Bool) (x : α) (l : List α) :
    (insertSorted le x l).length = l.length + 1 := by
  induction l with
  | nil => rfl
  | cons y ys ih =>
      by_cases h : le x y = true <;> simp [insertSorted, h, ih]

theorem length_insertionSort {α : Type} (le : α → α → Bool) (l : List α) :
    (insertionSort le l).length = l.length := by
  induction l with
  | nil => rfl
  | cons x xs ih => simp [insertionSort, length_insertSorted, ih]

theorem length_sortDevices (st : Option SortCriteria) (l : List StoredDevice) :
    (sortDevices st l).length = l.length := by
  cases st <;> simp [sortDevices, length_insertionSort]

theorem sortDevices_nil (st : Option SortCriteria) : sortDevices st [] = [] := by
  cases st <;> rfl

/-- C2: the page is the skip-then-limit slice of the sorted matched set
(no limit applied when the limit is non-positive), so its length is
bounded by a positive limit and by the total count, and the total count
is the number of devices matching the filter and group constraints — an
expression independent of `Skip` and `Limit`. -/
theorem C2_pagination_and_count (q : ListQuery) (coll : List StoredDevice) :
    (GetDevices q coll).2 =
      (coll.filter (matchesQuery q.Filters q.GroupName q.HasGroup)).length ∧
    (0 < q.Limit → (GetDevices q coll).1.length ≤ q.Limit.toNat) ∧
    (GetDevices q coll).1.length ≤ (GetDevices q coll).2 ∧
    (q.Limit ≤ 0 → (GetDevices q coll).1.length = (GetDevices q coll).2 - q.Skip) := by
  refine ⟨rfl, ?_, ?_, ?_⟩
  · intro hl
    simp only [GetDevices, if_pos hl]
    rw [List.length_take]
    exact min_le_left _ _
  · simp only [GetDevices]
    split
    · rw [List.length_take, List.length_drop, length_sortDevices]
      exact le_trans (min_le_right _ _) (Nat.sub_le _ _)
    · rw [List.length_drop, length_sortDevices]
      exact Nat.sub_le _ _
  · intro hl
    have hnl : ¬ 0 < q.Limit := by omega
    simp only [GetDevices, if_neg hnl]
    rw [List.length_drop, length_sortDevices]

/-- A device with no attributes at all. -/
def dN (i : String) : StoredDevice := ⟨i, AttrMap.empty⟩

/-- An unconstrained query with skip 1 and limit 2. -/
def q2 : ListQuery := ⟨1, 2, [], none, none, ""⟩

theorem C2_pagination_and_count_witness :
    (GetDevices q2 [dN "1", dN "2", dN "3", dN "4"]).2 = 4 ∧
    (GetDevices q2 [dN "1", dN "2", dN "3", dN "4"]).1.length ≤ 2 ∧
    (GetDevices q2 [dN "1", dN "2", dN "3", dN "4"]).1.length ≤
      (GetDevices q2 [dN "1", dN "2", dN "3", dN "4"]).2 := by
  have h := C2_pagination_and_count q2 [dN "1", dN "2", dN "3", dN "4"]
  exact ⟨by rw [h.1]; rfl, h.2.1 (by decide), h.2.2.1⟩

/-- A list query carrying a single equality filter and no other
constraint. -/
def singleFilterQuery (f : Filter) : ListQuery := ⟨0, 0, [f], none, none, ""⟩

theorem singleFilterQuery_page (f : Filter) (coll : List StoredDevice) :
    (GetDevices (singleFilterQuery f) coll).1 =
      coll.filter (fun d => matchesFilter d f) := by
  have hflt : matchesQuery [f] "" none = fun d => matchesFilter d f := by
    funext d
    simp [matchesQuery]
  simp [GetDevices, singleFilterQuery, sortDevices, hflt]

/-- C1, amended: for a query with one equality filter and no other
constraint, a device of the collection is returned exactly when its
stored value at the filter's `(scope, name)` path equals the filter's
string form, or equals its parsed-number form when one is present — or is
an array one of whose elements does (MongoDB `$eq` array semantics). -/
theorem C1_equality_filter_match (f : Filter) (coll : List StoredDevice)
    (d : StoredDevice) (hd : d ∈ coll) :
    d ∈ (GetDevices (singleFilterQuery f) coll).1 ↔
      (filterTarget f d = some (.scalar (.str f.Value)) ∨
        (∃ l, filterTarget f d = some (.arr l) ∧ AttrScalar.str f.Value ∈ l) ∨
        (∃ x, f.ValueFloat = some x ∧
          (filterTarget f d = some (.scalar (.num x)) ∨
            ∃ l, filterTarget f d = some (.arr l) ∧ AttrScalar.num x ∈ l))) := by
  rw [singleFilterQuery_page, List.mem_filter]
  simp only [hd, true_and]
  cases hvf : f.ValueFloat with
  | none =>
      simp [matchesFilter, hvf, mongoEq_true_iff]
  | some x =>
      simp only [matchesFilter, hvf, Bool.or_eq_true, mongoEq_true_iff]
      constructor
      · rintro ((h | h) | (h | h))
        · exact Or.inl h
        · exact Or.inr (Or.inl h)
        · exact Or.inr (Or.inr ⟨x, rfl, Or.inl h⟩)
        · exact Or.inr (Or.inr ⟨x, rfl, Or.inr h⟩)
      · rintro (h | h | ⟨y, hy, h | h⟩)
        · exact Or.inl (Or.inl h)
        · exact Or.inl (Or.inr h)
        · cases hy
          exact Or.inr (Or.inl h)
        · cases hy
          exact Or.inr (Or.inr h)

/-- A device whose filtered attribute holds the array `["4.0"]`. -/
def dC1 : StoredDevice :=
  ⟨"A", fun k =>
    if k = "inventory-ver" then
      some ⟨some "inventory", some "ver", some (.arr [.str "4.0"]), none⟩
    else none⟩

/-- A string-only equality filter on `(inventory, ver)` with value
`"4.0"`. -/
def fC1 : Filter := ⟨"ver", "inventory", "4.0", none, .eq⟩

/-- C1 counterexample: the stored value at the filter's path is the array
`["4.0"]`, which equals neither the string form (the filter carries no
number form), yet the device is returned. -/
theorem C1_counterexample :
    (GetDevices (singleFilterQuery fC1) [dC1]).1 = [dC1] ∧
    filterTarget fC1 dC1 ≠ some (.scalar (.str "4.0")) ∧
    fC1.ValueFloat = none := by
  refine ⟨rfl, by decide, rfl⟩

/-- A device storing the number `4.0` at `(inventory, ver)`. -/
def dC1n : StoredDevice :=
  ⟨"B", fun k =>
    if k = "inventory-ver" then
      some ⟨some "inventory", some "ver", some (.scalar (.num 4)), none⟩
    else none⟩

/-- The dual-representation filter carrying both `"4.0"` and `4.0`. -/
def fC1n : Filter := ⟨"ver", "inventory", "4.0", some 4, .eq⟩

theorem C1_equality_filter_match_witness :
    dC1n ∈ (GetDevices (singleFilterQuery fC1n) [dC1n]).1 := by
  refine (C1_equality_filter_match fC1n [dC1n] dC1n (by simp)).mpr ?_
  exact Or.inr (Or.inr ⟨4, rfl, Or.inl rfl⟩)

/-- C8: a failed aggregation execution is indistinguishable from an empty
store — the unchecked `Aggregate` error makes `GetDevices` return an
empty page, count 0 and **no** error; a decode failure does surface the
wrapped storage error; and a genuinely empty match set is a normal
empty result. -/
theorem C8_failure_surfacing (q : ListQuery) (coll : List StoredDevice) :
    GetDevicesRun q coll .execFailure = (([], 0), none) ∧
    GetDevicesRun q coll .execFailure = GetDevicesRun q [] .success ∧
    (GetDevicesRun q coll .decodeFailure).2 = some .storageFailure ∧
    (coll.filter (matchesQuery q.Filters q.GroupName q.HasGroup) = [] →
      GetDevicesRun q coll .success = (([], 0), none)) := by
  refine ⟨rfl, ?_, rfl, ?_⟩
  · simp [GetDevicesRun, GetDevices, sortDevices_nil]
  · intro hf
    simp [GetDevicesRun, GetDevices, hf, sortDevices_nil]

/-- A device carrying no attributes, named `"B"`. -/
def dPlain : StoredDevice := ⟨"B", AttrMap.empty⟩

/-- A query restricted to devices that have a group. -/
def qC8 : ListQuery := ⟨0, 0, [], none, some true, ""⟩

theorem C8_failure_surfacing_witness :
    GetDevicesRun qC8 [dPlain] .success = (([], 0), none) ∧
    GetDevicesRun qC8 [dPlain] .execFailure = (([], 0), none) := by
  have h := C8_failure_surfacing qC8 [dPlain]
  exact ⟨h.2.2.2 rfl, h.1⟩

/-- The predicate "this device is in group `g`" as the group filter
compiles it: MongoDB equality of the stored group value against `g`. -/
def inGroup (g : String) (d : StoredDevice) : Bool :=
  mongoEq (.str g) (groupValue d)

theorem matchesQuery_group (g : String) (hg : g ≠ "") (d : StoredDevice) :
    matchesQuery [] g (some true) d = inGroup g d := by
  unfold matchesQuery inGroup
  have hgne : (g == "") = false := by
    simpa using hg
  rw [hgne]
  simp only [Bool.false_or, List.all_nil, Bool.and_true]
  cases hm : mongoEq (.str g) (groupValue d) with
  | false => simp
  | true =>
      have hsome : (d.attrs groupKey).isSome = true := by
        rcases (mongoEq_true_iff _ _).mp hm with h1 | ⟨l, h1, _⟩ <;>
          · unfold groupValue at h1
            cases hk : d.attrs groupKey with
            | none => rw [hk] at h1; cases h1
            | some a => simp [hk]
      simp [hsome]

/-- C9, amended: for a non-empty group name, `GetDevicesByGroup` returns
`GroupNotFound` exactly when no device MongoDB-matches the group, and
otherwise the identifiers of the skip/limit slice of the devices matching
the group, together with the total number of matching devices —
independent of skip and limit. -/
theorem C9_list_by_group (coll : List StoredDevice) (g : String)
    (skip : Nat) (limit : Int) (hg : g ≠ "") :
    (GetDevicesByGroup coll g skip limit = .error .groupNotFound ↔
      ∀ d ∈ coll, inGroup g d = false) ∧
    ((∃ d ∈ coll, inGroup g d = true) →
      GetDevicesByGroup coll g skip limit = .ok
        ((if 0 < limit then ((coll.filter (inGroup g)).drop skip).take limit.toNat
          else (coll.filter (inGroup g)).drop skip).map StoredDevice.id,
         (coll.filter (inGroup g)).length)) := by
  have hbne : (g != "") = true := by
    simpa using hg
  have hany : (coll.any fun d => mongoEq (.str g) (groupValue d)) = coll.any (inGroup g) :=
    rfl
  have hfilter : coll.filter (matchesQuery [] g (some true)) = coll.filter (inGroup g) :=
    List.filter_congr fun d _ => matchesQuery_group g hg d
  constructor
  · cases hc : coll.any (inGroup g) with
    | false =>
        constructor
        · intro _
          intro d hd
          have := (List.any_eq_false.mp hc) d hd
          simpa using this
        · intro _
          unfold GetDevicesByGroup
          rw [hany, hc]
          simp
    | true =>
        constructor
        · intro habs
          unfold GetDevicesByGroup at habs
          rw [hany, hc] at habs
          simp at habs
        · intro hall
          rcases List.any_eq_true.mp hc with ⟨d, hd, hdg⟩
          rw [hall d hd] at hdg
          cases hdg
  · intro hex
    have hc : coll.any (inGroup g) = true := List.any_eq_true.mpr hex
    unfold GetDevicesByGroup
    rw [hany, hc]
    simp only [if_true, hbne]
    unfold GetDevices
    simp only [hfilter, sortDevices]

/-- Device `"1"` of the spec's scenario: no group. -/
def dNoG : StoredDevice := ⟨"1", AttrMap.empty⟩

/-- Device `"2"` of the spec's scenario: group `"g"`. -/
def dG2 : StoredDevice :=
  ⟨"2", fun k => if k = groupKey then some (groupAttrDoc "g") else none⟩

/-- Device `"3"` of the spec's scenario: group `"g"`. -/
def dG3 : StoredDevice :=
  ⟨"3", fun k => if k = groupKey then some (groupAttrDoc "g") else none⟩

theorem C9_list_by_group_witness :
    GetDevicesByGroup [dNoG, dG2, dG3] "g" 0 1 = .ok (["2"], 2) ∧
    GetDevicesByGroup [dNoG, dG2, dG3] "missing" 0 0 = .error .groupNotFound := by
  constructor
  · have h := (C9_list_by_group [dNoG, dG2, dG3] "g" 0 1 (by decide)).2
      ⟨dG2, by simp, rfl⟩
    rw [h]
    rfl
  · exact (C9_list_by_group [dNoG, dG2, dG3] "missing" 0 0 (by decide)).1.mpr
      (by intro d hd
          rcases List.mem_cons.mp hd with rfl | hd2
          · rfl
          rcases List.mem_cons.mp hd2 with rfl | hd3
          · rfl
          rcases List.mem_cons.mp hd3 with rfl | hd4
          · rfl
          · cases hd4)

/-- Device `"A"`, holding the group attribute with the empty-string
value (as `UpdateDeviceGroup` with group name `""` writes it). -/
def dEmptyG : StoredDevice :=
  ⟨"A", fun k => if k = groupKey then some (groupAttrDoc "") else none⟩

/-- C9 counterexample at the empty group name: device `"A"` carries the
group value `""` and device `"B"` carries no group at all, yet listing
group `""` finds the group non-empty (via `"A"`) and then returns `"B"` —
the listing is not restricted by the group name. -/
theorem C9_counterexample :
    inGroup "" dEmptyG = true ∧
    groupValue dPlain = none ∧
    GetDevicesByGroup [dEmptyG, dPlain] "" 0 0 = .ok (["B"], 1) := by
  exact ⟨rfl, rfl, rfl⟩

end Inventory
